import Mathlib

/-!
Verification of the CPU shader viewer (`src/main.cc`).

The development shallowly embeds the core of the program:

* the statistics engine (`sum` … `stddev`, `collect`, `Stats::getStat` and the
  whitespace tokenizer it uses);
* the shader loading pipeline (`loadShaderFromSource`, `loadShader`, the load
  step of `benchmarkRenderMain`) over an abstract compiler/filesystem
  environment, since the Slang compiler service, SDL and the filesystem are
  external collaborators;
* the tile dispatcher (`renderTile`, `renderFrameSinglethread`,
  `renderFrameMultithread`) as invocation traces;
* the `resolution` command of the benchmark interpreter;
* the file-drop handling of the interactive live-reload loop.

Float model: the C++ code computes with IEEE `float`/`double`.  We model a
float value as `Option ℚ`: `some q` is a finite value whose exact rational
value the computation determines, and `none` stands for any value the exact
rational model cannot produce — NaN (e.g. `0.0f / 0`), infinities (division by
zero), or an irrational math-library result (`pow`, `sqrt`).  Arithmetic on
`none` yields `none`.  Rounding error is ignored throughout: the statements
below are about the exact arithmetic the spec describes, and every concrete
evaluation stays within small rationals.  Process-terminating `panic(...)`
calls are modeled as `Except.error`, so an `.ok` result means the process
keeps running.
-/

namespace ShaderViewer

/-- Model of one IEEE float value: `some q` = the exact finite rational value,
`none` = NaN / infinity / a value with no exact rational representation. -/
abbrev FloatVal := Option ℚ

/-- Float addition; non-finite operands propagate. -/
def fadd : FloatVal → FloatVal → FloatVal
  | some a, some b => some (a + b)
  | _, _ => none

/-- Float subtraction; non-finite operands propagate. -/
def fsub : FloatVal → FloatVal → FloatVal
  | some a, some b => some (a - b)
  | _, _ => none

/-- Float multiplication; non-finite operands propagate. -/
def fmul : FloatVal → FloatVal → FloatVal
  | some a, some b => some (a * b)
  | _, _ => none

/-- Float division.  A finite quotient exists only when the divisor is a
nonzero finite value: `0/0` is NaN and `x/0` is an infinity, both `none`. -/
def fdiv : FloatVal → FloatVal → FloatVal
  | some a, some b => if b = 0 then none else some (a / b)
  | _, _ => none

/-- Float `<` comparison: any comparison with a non-finite value is modeled
as the IEEE NaN comparison result `false`. -/
def flt : FloatVal → FloatVal → Bool
  | some a, some b => decide (a < b)
  | _, _ => false

/-- Float `>` comparison, same convention as `flt`. -/
def fgt : FloatVal → FloatVal → Bool
  | some a, some b => decide (a > b)
  | _, _ => false

/-- Search for the natural `n`-th root of `m` (the exhaustive bound suffices:
any root of `m` is at most `m + 1`). -/
def natNthRoot (m n : ℕ) : Option ℕ :=
  (List.range (m + 2)).find? (fun k => k ^ n = m)

/-- Exact rational `n`-th root of a nonnegative rational, when one exists;
`none` when the real root is irrational (the float code would return an
inexact approximation, which has no exact rational counterpart). -/
def ratRoot (p : ℚ) (n : ℕ) : FloatVal :=
  match natNthRoot p.num.toNat n, natNthRoot p.den n with
  | some a, some b => some ((a : ℚ) / (b : ℚ))
  | _, _ => none

/-- Embeds `float sum(const std::vector<float>&)`: running sum from 0.
No empty-sequence guard is needed; the loop leaves the accumulator at 0. -/
def sumF (vals : List FloatVal) : FloatVal :=
  vals.foldl fadd (some 0)

/-- Embeds `float mean(const std::vector<float>&)`: 0 on empty, else the sum
divided by the length. -/
def meanF (vals : List FloatVal) : FloatVal :=
  if vals = [] then some 0
  else fdiv (sumF vals) (some (vals.length : ℚ))

/-- Embeds `float min(const std::vector<float>&)`: 0 on empty, else a fold of
`v < s ? v : s` started from the first element, exactly as the C++ loop
(including its IEEE comparison behavior on non-finite values). -/
def minF (vals : List FloatVal) : FloatVal :=
  match vals with
  | [] => some 0
  | v0 :: _ => vals.foldl (fun s v => if flt v s then v else s) v0

/-- Embeds `float max(const std::vector<float>&)`: 0 on empty, else a fold of
`v > s ? v : s` started from the first element. -/
def maxF (vals : List FloatVal) : FloatVal :=
  match vals with
  | [] => some 0
  | v0 :: _ => vals.foldl (fun s v => if fgt v s then v else s) v0

/-- Embeds `float median(const std::vector<float>&)`: 0 on empty, else sort
ascending and take index `size/2`.  `std::sort` on a list containing NaN has
no specified result, so a non-finite input makes the result `none`. -/
def medianF (vals : List FloatVal) : FloatVal :=
  if vals = [] then some 0
  else
    match vals.mapM id with
    | none => none
    | some qs => some ((List.insertionSort (· ≤ ·) qs).getD (qs.length / 2) 0)

/-- Embeds `float geomean(const std::vector<float>&)`: 0 on empty, else
`pow(product, 1.0 / n)`.  For `n = 1` the exponent `1.0 / 1` is exactly the
integer 1, and `pow(s, 1.0)` returns the base exactly, whatever its sign.
For `n ≥ 2` the exponent is not an integer, so `pow` of a negative base is
NaN, and a nonnegative base yields the real `n`-th root, which has an exact
rational value only when `ratRoot` finds one. -/
def geomeanF (vals : List FloatVal) : FloatVal :=
  if vals = [] then some 0
  else
    match vals.mapM id with
    | none => none
    | some qs =>
      let p := qs.prod
      if qs.length = 1 then some p
      else if p < 0 then none
      else ratRoot p qs.length

/-- Embeds `float harmonicMean(const std::vector<float>&)`: 0 on empty, else
the length divided by the running sum of reciprocals `1.0 / v`. -/
def harmonicMeanF (vals : List FloatVal) : FloatVal :=
  if vals = [] then some 0
  else
    fdiv (some (vals.length : ℚ))
      (vals.foldl (fun s v => fadd s (fdiv (some 1) v)) (some 0))

/-- Embeds `float variance(const std::vector<float>&)`.  Unlike every other
cumulation function it has NO empty-sequence guard: it computes
`mean`, sums the squared deviations, and divides by `vals.size()` — on the
empty sequence that division is `0.0f / 0`, NaN. -/
def varianceF (vals : List FloatVal) : FloatVal :=
  let m := meanF vals
  fdiv (vals.foldl (fun s v => fadd s (fmul (fsub m v) (fsub m v))) (some 0))
    (some (vals.length : ℚ))

/-- Embeds `sqrt` as applied to `variance` in `collect`: NaN propagates, a
negative argument or an irrational real square root has no finite rational
value. -/
def sqrtF : FloatVal → FloatVal
  | none => none
  | some q => if q < 0 then none else ratRoot q 2

/-- The fatal errors (`panic(...)`, i.e. process exit) the stats engine can
raise, with their distinguishing data. -/
inductive StatsError where
  | noVariable : StatsError
  | unknownVariable : String → StatsError
  | unknownCumulation : String → StatsError
  | tooMany : StatsError
deriving DecidableEq, Repr

/-- The cumulation-function names `collect` recognizes. -/
def recognizedCum (c : String) : Bool :=
  c = "sum" || c = "mean" || c = "min" || c = "max" || c = "median" ||
  c = "geomean" || c = "harmonic-mean" || c = "variance" || c = "stddev"

/-- Embeds `float collect(const std::vector<float>&, const char*)`: a null
cumulation name means "last element, or 0 if empty"; otherwise dispatch on the
name, and `panic` (fatal) on an unrecognized name. -/
def collect (vals : List FloatVal) (cumulative : Option String) :
    Except StatsError FloatVal :=
  match cumulative with
  | none => .ok (vals.getLast?.getD (some 0))
  | some c =>
    if c = "sum" then .ok (sumF vals)
    else if c = "mean" then .ok (meanF vals)
    else if c = "min" then .ok (minF vals)
    else if c = "max" then .ok (maxF vals)
    else if c = "median" then .ok (medianF vals)
    else if c = "geomean" then .ok (geomeanF vals)
    else if c = "harmonic-mean" then .ok (harmonicMeanF vals)
    else if c = "variance" then .ok (varianceF vals)
    else if c = "stddev" then .ok (sqrtF (varianceF vals))
    else .error (.unknownCumulation c)

/-- Embeds `struct RunStats`: the build duration and the ordered per-frame
render durations of one benchmark `run`. -/
structure RunStats where
  buildTime : ℚ
  frames : List ℚ
deriving DecidableEq, Repr

/-- Embeds `Stats::getStat` after tokenization: `specifiers` is the
whitespace-split query.  The last token is the variable name; for
`frame-time` the (new) last token, if any, is consumed as the inner
cumulation applied to each run's frame list; more than one token left after
that is fatal; the remaining token, if any, is the outer cumulation. -/
def getStatTokens (runs : List RunStats) (specifiers : List String) :
    Except StatsError FloatVal :=
  match specifiers.getLast? with
  | none => .error .noVariable
  | some var =>
    let specifiers := specifiers.dropLast
    if var = "build-time" then
      let stats := runs.map (fun r => (some r.buildTime : FloatVal))
      if specifiers.length > 1 then .error .tooMany
      else collect stats specifiers.getLast?
    else if var = "frame-time" then
      match specifiers.getLast? with
      | some cum =>
        match runs.mapM (fun r => collect (r.frames.map some) (some cum)) with
        | .error e => .error e
        | .ok stats =>
          let specifiers := specifiers.dropLast
          if specifiers.length > 1 then .error .tooMany
          else collect stats specifiers.getLast?
      | none =>
        match runs.mapM (fun r => collect (r.frames.map some) none) with
        | .error e => .error e
        | .ok stats =>
          if specifiers.length > 1 then .error .tooMany
          else collect stats specifiers.getLast?
    else .error (.unknownVariable var)

/-- Characters skipped between tokens (`skipWhitespace`: `" \t\n"`). -/
def isSkipWS (c : Char) : Bool := c = ' ' || c = '\t' || c = '\n'

/-- Characters ending a token (`readUntilWhitespace` stops at `' '`, `'\t'`
or the end of the string). -/
def isBreakWS (c : Char) : Bool := c = ' ' || c = '\t'

/-- Embeds the loop of `splitByWhitespace`; the fuel argument only bounds the
recursion and is always supplied large enough. -/
def splitWSAux : ℕ → List Char → List String
  | 0, _ => []
  | fuel + 1, s =>
    match s.dropWhile isSkipWS with
    | [] => []
    | c :: rest =>
      String.mk ((c :: rest).takeWhile (fun ch => !isBreakWS ch)) ::
        splitWSAux fuel ((c :: rest).dropWhile (fun ch => !isBreakWS ch))

/-- Embeds `std::vector<std::string> splitByWhitespace(const char*)`. -/
def splitByWhitespace (s : String) : List String :=
  splitWSAux (s.data.length + 1) s.data

/-- Embeds `Stats::getStat` on the raw query string, as called from the
`print` command's `${...}` substitution. -/
def getStat (runs : List RunStats) (spec : String) : Except StatsError FloatVal :=
  getStatTokens runs (splitByWhitespace spec)

/-- Embeds `DISPATCH_TILE_SIZE`. -/
def DISPATCH_TILE_SIZE : ℕ := 8

/-- The fixed text prepended to the user shader in `loadShaderFromSource`:
the `ShaderViewerConstants` uniform block and the Shadertoy-style macros. -/
def shaderHeader : String :=
  "\nstruct ShaderViewerConstants\n\x7b\n    float time;\n    int frame;\n    uint pitch;\n    float4 mouse;\n    float3 res;\n\x7d;\n\nConstantBuffer<ShaderViewerConstants, CDataLayout> shaderViewerConstants;\n\n#define iResolution shaderViewerConstants.res\n#define iFrame shaderViewerConstants.frame\n#define iMouse shaderViewerConstants.mouse\n#define iTime shaderViewerConstants.time\n"

/-- The output-buffer declaration appended right after the user shader. -/
def pixelDataDecl : String :=
  "\nRWStructuredBuffer<uint32_t> pixelData;\n"

/-- The generated kernel entry point appended last: computes the pixel
center, flips the vertical axis, calls `mainImage`, clamps, packs to RGBA8
and writes at `x + y * pitch`. -/
def kernelSource : String :=
  "\nvoid renderRunner(\n    uint3 dispatchThreadID : SV_DispatchThreadID,\n    uint3 groupThreadID : SV_GroupThreadID)\n\x7b\n    float4 color = float4(1);\n    float2 p = float2(dispatchThreadID.xy) + float2(0.5);\n    p.y = shaderViewerConstants.res.y - p.y;\n    mainImage(color, p);\n\n    uint i = dispatchThreadID.x + dispatchThreadID.y * shaderViewerConstants.pitch;\n    uint4 ucolor = uint4(saturate(color) * 255);\n    pixelData[i] = (ucolor.a << 24) | (ucolor.b << 16) | (ucolor.g << 8) | ucolor.r;\n\x7d\n"

/-- Embeds the source assembly of `loadShaderFromSource`: header, user text
verbatim, output buffer, `[numthreads(8, 8, 1)]`, generated kernel. -/
def wrapShaderSource (shaderSource : String) : String :=
  shaderHeader ++ shaderSource ++ pixelDataDecl ++
    ("[numthreads(" ++ toString DISPATCH_TILE_SIZE ++ ", " ++
      toString DISPATCH_TILE_SIZE ++ ", 1)]") ++ kernelSource

/-- Embeds the built-in fallback source of `loadShader`: a flat red fill. -/
def fallbackSource : String :=
  "\nvoid mainImage(out vec4 fragColor, in vec2 fragCoord)\n\x7b\n    fragColor = vec4(1.0,0.0,0.0,1.0);\n\x7d\n"

/-- The external collaborators, abstracted: the Slang compiler service
(session creation, module load, composition, host-callable emission and
symbol lookup all collapse into one compile step that either yields an entry
point of the opaque type `EP` or fails), the filesystem (`readTextFile`
panics when `none`, hence the `Except` in the loaders), the
`std::filesystem::path::extension` query used by `isPathToGLSL`, and
`SDL_GetPathInfo`'s modification timestamp. -/
structure Env (EP : Type) where
  compile : String → Bool → Option EP
  readFile : String → Option String
  extension : String → String
  pathInfo : String → Option Int

/-- The viewer state the loaders touch: `ViewerResources::entryPointFunc`,
the active compiled entry point (`none` = null pointer). -/
structure ViewerState (EP : Type) where
  entryPointFunc : Option EP
deriving DecidableEq, Repr

/-- Embeds `isPathToGLSL`: the path's extension equals `".glsl"`. -/
def isPathToGLSL (env : Env EP) (path : String) : Bool :=
  env.extension path == ".glsl"

/-- Embeds `loadShaderFromSource`: nulls the entry point, wraps the source,
and asks the compiler service; on success stores the new entry point and
returns `true`, on any service failure leaves it null and returns `false`. -/
def loadShaderFromSource (env : Env EP) (st : ViewerState EP)
    (shaderSource : String) (allowGLSL : Bool) : ViewerState EP × Bool :=
  match env.compile (wrapShaderSource shaderSource) allowGLSL with
  | none => ({ st with entryPointFunc := none }, false)
  | some f => ({ st with entryPointFunc := some f }, true)

/-- Embeds `loadShader`: with a path, read the file (a read failure is a
process-terminating `panic`, modeled `.error`) and try it; with a null path
or after a failed attempt, compile the built-in fallback with the legacy
dialect enabled, ignoring its own status.  Returns whether the REQUESTED
shader is the one active. -/
def loadShader (env : Env EP) (st : ViewerState EP) (path : Option String) :
    Except String (ViewerState EP × Bool) :=
  match path with
  | none => .ok ((loadShaderFromSource env st fallbackSource true).1, false)
  | some p =>
    match env.readFile p with
    | none => .error ("Unable to open " ++ p)
    | some contents =>
      let (st1, status) := loadShaderFromSource env st contents (isPathToGLSL env p)
      if status then .ok (st1, true)
      else .ok ((loadShaderFromSource env st1 fallbackSource true).1, false)

/-- Embeds the load step of `benchmarkRenderMain`: read the shader file and
compile it directly via `loadShaderFromSource`; a build failure is
`panic("Failed to load shader ...")` — the process exits, no fallback. -/
def benchmarkLoadShader (env : Env EP) (st : ViewerState EP)
    (shaderPath : String) : Except String (ViewerState EP) :=
  match env.readFile shaderPath with
  | none => .error ("Unable to open " ++ shaderPath)
  | some contents =>
    let (st1, status) :=
      loadShaderFromSource env st contents (isPathToGLSL env shaderPath)
    if status then .ok st1
    else .error ("Failed to load shader " ++ shaderPath)

/-- The live-reload state of `interactiveMain`: the viewer resources, the
active shader path, the last observed modification timestamp and the
validity flag gating the frame-time log. -/
structure MonitorState (EP : Type) where
  viewer : ViewerState EP
  activeShaderPath : String
  shaderModifyTime : Int
  valid : Bool
deriving DecidableEq, Repr

/-- Embeds the `SDL_EVENT_DROP_FILE` handler of `interactiveMain`: if the
dropped path's info can be queried, `loadShader` runs; only on success are
the active path and baseline timestamp switched to the dropped file (with
`valid := true`); on failure only `valid := false` is recorded. -/
def handleDropFile (env : Env EP) (ms : MonitorState EP) (dropped : String) :
    Except String (MonitorState EP) :=
  match env.pathInfo dropped with
  | none => .ok ms
  | some mtime =>
    match loadShader env ms.viewer (some dropped) with
    | .error e => .error e
    | .ok (v, true) =>
      .ok { viewer := v, activeShaderPath := dropped,
            shaderModifyTime := mtime, valid := true }
    | .ok (v, false) => .ok { ms with viewer := v, valid := false }

/-- Embeds `renderTile` as an invocation trace: with a null entry point
nothing is invoked; otherwise the entry point is called once with the tile's
group ID. -/
def renderTile (st : ViewerState EP) (xTile yTile : ℕ) : List (EP × ℕ × ℕ) :=
  match st.entryPointFunc with
  | none => []
  | some f => [(f, xTile, yTile)]

/-- The tile grid both frame renderers enumerate: rows `0..⌈h/8⌉`, within
each row columns `0..⌈w/8⌉`, i.e. row-major order. -/
def tileGrid (width height : ℕ) : List (ℕ × ℕ) :=
  (List.range ((height + DISPATCH_TILE_SIZE - 1) / DISPATCH_TILE_SIZE)).flatMap
    (fun y => (List.range ((width + DISPATCH_TILE_SIZE - 1) / DISPATCH_TILE_SIZE)).map
      (fun x => (x, y)))

/-- Embeds `renderFrameSinglethread` as the trace of entry-point invocations
of its two nested loops (y outer, x inner). -/
def renderFrameSinglethread (st : ViewerState EP) (width height : ℕ) :
    List (EP × ℕ × ℕ) :=
  let xTiles := (width + DISPATCH_TILE_SIZE - 1) / DISPATCH_TILE_SIZE
  let yTiles := (height + DISPATCH_TILE_SIZE - 1) / DISPATCH_TILE_SIZE
  (List.range yTiles).flatMap (fun y =>
    (List.range xTiles).flatMap (fun x => renderTile st x y))

/-- Embeds `renderFrameMultithread`: the same loops under an OpenMP
`parallel for`; the set of invocations is identical, only their interleaving
is unspecified, so the trace is modeled by the same canonical enumeration. -/
def renderFrameMultithread (st : ViewerState EP) (width height : ℕ) :
    List (EP × ℕ × ℕ) :=
  let xTiles := (width + DISPATCH_TILE_SIZE - 1) / DISPATCH_TILE_SIZE
  let yTiles := (height + DISPATCH_TILE_SIZE - 1) / DISPATCH_TILE_SIZE
  (List.range yTiles).flatMap (fun y =>
    (List.range xTiles).flatMap (fun x => renderTile st x y))

/-- Embeds the clamp of the `resolution` command: `w < 1 ? 1 : w`, then
`w > 8192 ? 8192 : w`. -/
def clampDim (x : ℤ) : ℤ :=
  let x1 := if x < 1 then 1 else x
  if x1 > 8192 then 8192 else x1

/-- Embeds `(w + DISPATCH_TILE_SIZE - 1) / DISPATCH_TILE_SIZE *
DISPATCH_TILE_SIZE` with C's truncating integer division (`Int.tdiv`). -/
def roundUpTile (x : ℤ) : ℤ :=
  (x + (DISPATCH_TILE_SIZE : ℤ) - 1).tdiv (DISPATCH_TILE_SIZE : ℤ) *
    (DISPATCH_TILE_SIZE : ℤ)

/-- Embeds the `resolution` command handler of `benchmarkMain`: each
dimension (already converted from the parsed double to `int`) is clamped to
[1, 8192] and rounded up to the next multiple of the tile size. -/
def resolutionCommand (w h : ℤ) : ℤ × ℤ :=
  (roundUpTile (clampDim w), roundUpTile (clampDim h))

/-- The spec-side description of a `frame-time` query (§4.6 of the spec):
apply the inner cumulation (absent = last-or-0) to each run's frame list to
get one sample per run, then apply the outer cumulation (absent = last-or-0)
to the per-run samples. -/
def frameTimeQuerySpec (runs : List RunStats) (inner outer : Option String) :
    Except StatsError FloatVal :=
  match runs.mapM (fun r => collect (r.frames.map some) inner) with
  | .error e => .error e
  | .ok perRun => collect perRun outer

/-- A demo environment whose compiler service accepts everything. -/
def envOk : Env ℕ :=
  ⟨fun _ _ => some 7, fun _ => some "src", fun _ => ".glsl", fun _ => some 0⟩

/-- A demo environment whose compiler service rejects everything (every
requested shader and the fallback fail to build) but whose files read fine. -/
def envFail : Env ℕ :=
  ⟨fun _ _ => none, fun _ => some "x", fun _ => "", fun _ => some 10⟩

/-- A demo monitor state with a previously active shader. -/
def msOld : MonitorState ℕ := ⟨⟨none⟩, "old.slang", 5, true⟩

end ShaderViewer

namespace ShaderViewer

/-- A flat map whose function is constantly the empty list is empty. -/
theorem flatMap_const_nil {α β : Type} (l : List α) (f : α → List β)
    (hf : ∀ a, f a = []) : l.flatMap f = [] := by
  induction l with
  | nil => rfl
  | cons a l ih => simp [List.flatMap_cons, hf, ih]

/-- C10: with a null entry point (no shader ever compiled, fallback
included), dispatching a tile — and hence a whole frame, in either dispatch
mode — performs no entry-point invocation at all. -/
theorem renderTile_null_noop (EP : Type) (st : ViewerState EP) (x y w h : ℕ)
    (hnull : st.entryPointFunc = none) :
    renderTile st x y = [] ∧ renderFrameSinglethread st w h = [] ∧
      renderFrameMultithread st w h = [] := by
  have ht : ∀ a b : ℕ, renderTile st a b = ([] : List (EP × ℕ × ℕ)) := by
    intro a b
    simp [renderTile, hnull]
  refine ⟨ht x y, ?_, ?_⟩ <;>
    · refine flatMap_const_nil _ _ (fun a => ?_)
      exact flatMap_const_nil _ _ (fun b => ht b a)

/-- Witness for `renderTile_null_noop` at a concrete null-entry-point
state. -/
theorem renderTile_null_noop_witness :
    renderTile (⟨none⟩ : ViewerState ℕ) 0 0 = [] ∧
      renderFrameSinglethread (⟨none⟩ : ViewerState ℕ) 10 10 = [] ∧
      renderFrameMultithread (⟨none⟩ : ViewerState ℕ) 10 10 = [] :=
  renderTile_null_noop ℕ ⟨none⟩ 0 0 10 10 rfl

/-- Truncating division agrees with Euclidean division on nonnegative
operands (the case C's `/` produces after the clamp). -/
theorem tdiv_eq_ediv_nonneg (a b : ℤ) (ha : 0 ≤ a) (hb : 0 ≤ b) :
    a.tdiv b = a / b := by
  lift a to ℕ using ha
  lift b to ℕ using hb
  rfl

/-- The clamp of the `resolution` command lands in [1, 8192]. -/
theorem clampDim_bounds (x : ℤ) : 1 ≤ clampDim x ∧ clampDim x ≤ 8192 := by
  simp only [clampDim]
  split_ifs <;> omega

/-- C6: each `resolution` argument is clamped to [1, 8192] and then rounded
up to the next multiple of 8, so each resulting dimension is the least
multiple of 8 that is at least the clamped value, and lies in [8, 8192];
`resolution 10 10` yields 16×16. -/
theorem resolution_clamp_round (w h : ℤ) :
    resolutionCommand w h = (roundUpTile (clampDim w), roundUpTile (clampDim h))
    ∧ (1 ≤ clampDim w ∧ clampDim w ≤ 8192)
    ∧ 8 ∣ (resolutionCommand w h).1
    ∧ 8 ≤ (resolutionCommand w h).1
    ∧ (resolutionCommand w h).1 ≤ 8192
    ∧ clampDim w ≤ (resolutionCommand w h).1
    ∧ (∀ m : ℤ, clampDim w ≤ m → 8 ∣ m → (resolutionCommand w h).1 ≤ m)
    ∧ resolutionCommand 10 10 = (16, 16) := by
  obtain ⟨h1, h2⟩ := clampDim_bounds w
  have hre : ∀ x : ℤ, 1 ≤ x → roundUpTile x = (x + 7) / 8 * 8 := by
    intro x hx
    show (x + 8 - 1).tdiv 8 * 8 = (x + 7) / 8 * 8
    rw [show x + 8 - 1 = x + 7 by ring, tdiv_eq_ediv_nonneg _ _ (by omega) (by omega)]
  have hc10 : clampDim 10 = 10 := by decide
  have h10 : resolutionCommand 10 10 = (16, 16) := by
    simp only [resolutionCommand, hc10, hre 10 (by norm_num)]
    decide
  refine ⟨rfl, ⟨h1, h2⟩, ?_, ?_, ?_, ?_, ?_, h10⟩ <;>
    simp only [resolutionCommand, hre (clampDim w) h1]
  · omega
  · omega
  · omega
  · omega
  · intro m hm hd
    omega

/-- Witness for `resolution_clamp_round`: at 10×10 the minimality clause
applies to the multiple 16, and the command indeed yields 16×16. -/
theorem resolution_clamp_round_witness :
    (resolutionCommand 10 10).1 ≤ 16 ∧ resolutionCommand 10 10 = (16, 16) :=
  ⟨(resolution_clamp_round 10 10).2.2.2.2.2.2.1 16 (by decide) (by decide),
    (resolution_clamp_round 10 10).2.2.2.2.2.2.2⟩

/-- C4 counterexample: `variance` (and hence `stddev`) of the empty sequence
is NOT 0 — the code divides 0 by the length 0, an IEEE NaN. -/
theorem variance_empty_not_zero :
    varianceF [] ≠ some 0 ∧ sqrtF (varianceF []) ≠ some 0 := by
  constructor <;> decide

/-- C4 (amended): every recognized cumulation function except `variance` and
`stddev` — and the default "last" — returns 0 on the empty sequence;
`variance([])` performs the division `0.0f / 0` (NaN, no finite value), and
`stddev([])` is its square root, likewise non-finite. -/
theorem cumulation_empty_values :
    sumF [] = some 0 ∧ meanF [] = some 0 ∧ minF [] = some 0 ∧ maxF [] = some 0
    ∧ medianF [] = some 0 ∧ geomeanF [] = some 0 ∧ harmonicMeanF [] = some 0
    ∧ collect [] none = .ok (some 0)
    ∧ varianceF [] = none ∧ sqrtF (varianceF []) = none := by
  refine ⟨rfl, rfl, rfl, rfl, rfl, rfl, ?_, rfl, ?_, ?_⟩ <;> with_unfolding_all rfl

/-- A row-major double loop over ranges, indexed: the element at position
`y * xT + x` is the pair produced for column `x` of row `y`. -/
theorem flatMap_range_map_getElem {α : Type} (f : ℕ → ℕ → α) (xT : ℕ) :
    ∀ yT y x, y < yT → x < xT →
      ((List.range yT).flatMap
        (fun y => (List.range xT).map (fun x => f x y)))[y * xT + x]? =
        some (f x y) := by
  intro yT
  induction yT with
  | zero => omega
  | succ n ih =>
    intro y x hy hx
    rw [List.range_succ, List.flatMap_append]
    have hlen : ((List.range n).flatMap
        (fun y => (List.range xT).map (fun x => f x y))).length = n * xT := by
      rw [List.length_flatMap]
      simp only [Function.comp_def, List.length_map, List.length_range,
        List.map_const', List.sum_replicate, smul_eq_mul]
    by_cases hyn : y < n
    · have hidx : y * xT + x < n * xT := by
        calc y * xT + x < y * xT + xT := by omega
        _ = (y + 1) * xT := by ring
        _ ≤ n * xT := Nat.mul_le_mul_right xT (by omega)
      rw [List.getElem?_append_left (by rw [hlen]; exact hidx)]
      exact ih y x hyn hx
    · have hyeq : y = n := by omega
      subst hyeq
      rw [List.getElem?_append_right (by rw [hlen]; exact Nat.le_add_right _ _)]
      rw [hlen, Nat.add_sub_cancel_left]
      simp only [List.flatMap_cons, List.flatMap_nil, List.append_nil]
      rw [List.getElem?_map, List.getElem?_range hx]
      rfl

/-- C7: for positive W and H the dispatcher's tile grid has exactly
⌈W/8⌉·⌈H/8⌉ tiles, enumerated in row-major order (tile (x, y) sits at index
y·⌈W/8⌉ + x, which is also the order `renderFrameSinglethread` visits), and
the 8×8 footprints of the tiles cover every pixel of the W×H rectangle. -/
theorem tile_grid_count_coverage (w h : ℕ) (hw : 0 < w) (hh : 0 < h) :
    (tileGrid w h).length = ((w + 7) / 8) * ((h + 7) / 8)
    ∧ (∀ x y, x < (w + 7) / 8 → y < (h + 7) / 8 →
        (tileGrid w h)[y * ((w + 7) / 8) + x]? = some (x, y))
    ∧ (∀ px py, px < w → py < h →
        ∃ t ∈ tileGrid w h, 8 * t.1 ≤ px ∧ px < 8 * t.1 + 8 ∧
          8 * t.2 ≤ py ∧ py < 8 * t.2 + 8)
    ∧ (∀ (EP : Type) (st : ViewerState EP),
        renderFrameSinglethread st w h =
          (tileGrid w h).flatMap (fun t => renderTile st t.1 t.2)
        ∧ renderFrameMultithread st w h =
          (tileGrid w h).flatMap (fun t => renderTile st t.1 t.2)) := by
  have hxe : (w + DISPATCH_TILE_SIZE - 1) / DISPATCH_TILE_SIZE = (w + 7) / 8 := by
    simp only [DISPATCH_TILE_SIZE]
    omega
  have hye : (h + DISPATCH_TILE_SIZE - 1) / DISPATCH_TILE_SIZE = (h + 7) / 8 := by
    simp only [DISPATCH_TILE_SIZE]
    omega
  refine ⟨?_, ?_, ?_, ?_⟩
  · simp only [tileGrid]
    rw [hxe, hye, List.length_flatMap]
    simp only [Function.comp_def, List.length_map, List.length_range,
      List.map_const', List.sum_replicate, smul_eq_mul]
    ring
  · intro x y hx hy
    simp only [tileGrid]
    rw [hxe, hye]
    exact flatMap_range_map_getElem (fun a b => (a, b)) _ _ y x hy hx
  · intro px py hpx hpy
    refine ⟨(px / 8, py / 8), ?_, by omega, by omega, by omega, by omega⟩
    simp only [tileGrid]
    rw [hxe, hye]
    refine List.mem_flatMap.mpr ⟨py / 8, List.mem_range.mpr (by omega), ?_⟩
    exact List.mem_map.mpr ⟨px / 8, List.mem_range.mpr (by omega), rfl⟩
  · intro EP st
    have key : (tileGrid w h).flatMap (fun t => renderTile st t.1 t.2) =
        (List.range ((h + DISPATCH_TILE_SIZE - 1) / DISPATCH_TILE_SIZE)).flatMap
          (fun y =>
            (List.range ((w + DISPATCH_TILE_SIZE - 1) / DISPATCH_TILE_SIZE)).flatMap
              (fun x => renderTile st x y)) := by
      simp only [tileGrid, List.flatMap_assoc, List.flatMap_map]
    exact ⟨key.symm, key.symm⟩

/-- Witness for `tile_grid_count_coverage` at the concrete 10×10 surface:
four tiles, and the middle pixel (9, 9) is covered by tile (1, 1). -/
theorem tile_grid_count_coverage_witness :
    (tileGrid 10 10).length = ((10 + 7) / 8) * ((10 + 7) / 8)
    ∧ ∃ t ∈ tileGrid 10 10, 8 * t.1 ≤ 9 ∧ 9 < 8 * t.1 + 8 ∧
        8 * t.2 ≤ 9 ∧ 9 < 8 * t.2 + 8 :=
  ⟨(tile_grid_count_coverage 10 10 (by decide) (by decide)).1,
    (tile_grid_count_coverage 10 10 (by decide) (by decide)).2.2.1 9 9
      (by decide) (by decide)⟩

/-- A recognized cumulation name never makes `collect` fail. -/
theorem collect_ok_of_recognized (vals : List FloatVal) (c : String)
    (h : recognizedCum c = true) : ∃ v, collect vals (some c) = .ok v := by
  simp only [recognizedCum, Bool.or_eq_true, decide_eq_true_eq] at h
  rcases h with (((((((rfl | rfl) | rfl) | rfl) | rfl) | rfl) | rfl) | rfl) | rfl <;>
    exact ⟨_, rfl⟩

/-- An unrecognized cumulation name makes `collect` raise the
"Unknown cumulation prefix" fatal error. -/
theorem collect_error_of_unrecognized (vals : List FloatVal) (c : String)
    (h : recognizedCum c = false) :
    collect vals (some c) = .error (.unknownCumulation c) := by
  simp only [recognizedCum, Bool.or_eq_false_iff, decide_eq_false_iff_not] at h
  obtain ⟨⟨⟨⟨⟨⟨⟨⟨h1, h2⟩, h3⟩, h4⟩, h5⟩, h6⟩, h7⟩, h8⟩, h9⟩ := h
  simp [collect, h1, h2, h3, h4, h5, h6, h7, h8, h9]

/-- A list maps to `.ok` under `mapM` when every element does. -/
theorem mapM_ok_of_forall {ε α β : Type} (f : α → Except ε β) :
    ∀ l : List α, (∀ a ∈ l, ∃ b, f a = .ok b) → ∃ l', l.mapM f = .ok l' := by
  intro l
  induction l with
  | nil => exact fun _ => ⟨[], rfl⟩
  | cons a t ih =>
    intro h
    obtain ⟨b, hb⟩ := h a (List.mem_cons_self a t)
    obtain ⟨l', hl'⟩ := ih (fun x hx => h x (List.mem_cons_of_mem a hx))
    refine ⟨b :: l', ?_⟩
    rw [List.mapM_cons, hb, hl']
    rfl

/-- A `mapM` whose first element fails propagates that error. -/
theorem mapM_cons_error {ε α β : Type} (f : α → Except ε β) (a : α) (t : List α)
    (e : ε) (ha : f a = .error e) : (a :: t).mapM f = .error e := by
  rw [List.mapM_cons, ha]
  rfl

/-- C9 counterexample: with one recorded run, the query
"a b bogus frame-time" leaves more than one unconsumed token before the
variable, yet the fatal error is "Unknown cumulation prefix bogus", not
"too many cumulation prefixes". -/
theorem too_many_message_counterexample :
    getStat [⟨0, [1]⟩] "a b bogus frame-time" =
      .error (.unknownCumulation "bogus")
    ∧ StatsError.unknownCumulation "bogus" ≠ StatsError.tooMany :=
  ⟨rfl, by decide⟩

/-- C9 (amended): once the trailing variable (and, for `frame-time`, one
inner token) is consumed, more than one leftover token is always a fatal
error; it reports "too many cumulation prefixes" except when the variable is
`frame-time`, the consumed inner token is unrecognized and at least one run
is recorded — then the per-run collection dies first with
"Unknown cumulation prefix". -/
theorem leftover_tokens_fatal :
    (∀ (runs : List RunStats) (pre : List String), 1 < pre.length →
      getStatTokens runs (pre ++ ["build-time"]) = .error .tooMany)
    ∧ (∀ (runs : List RunStats) (pre : List String) (inner : String),
        1 < pre.length →
        getStatTokens runs ((pre ++ [inner]) ++ ["frame-time"]) =
          .error (if recognizedCum inner || runs.isEmpty then .tooMany
            else .unknownCumulation inner)) := by
  constructor
  · intro runs pre h
    have h1 : (pre ++ ["build-time"]).getLast? = some "build-time" :=
      List.getLast?_concat _
    have h2 : (pre ++ ["build-time"]).dropLast = pre := List.dropLast_concat
    simp [getStatTokens, h1, h2, h]
  · intro runs pre inner h
    have h1 : ((pre ++ [inner]) ++ ["frame-time"]).getLast? = some "frame-time" :=
      List.getLast?_concat _
    have h2 : ((pre ++ [inner]) ++ ["frame-time"]).dropLast = pre ++ [inner] :=
      List.dropLast_concat
    have h3 : (pre ++ [inner]).getLast? = some inner := List.getLast?_concat _
    have h4 : (pre ++ [inner]).dropLast = pre := List.dropLast_concat
    cases hrec : recognizedCum inner with
    | true =>
      obtain ⟨l', hl'⟩ := mapM_ok_of_forall
        (fun r : RunStats => collect (r.frames.map some) (some inner)) runs
        (fun r _ => collect_ok_of_recognized (r.frames.map some) inner hrec)
      rw [List.mapM] at hl'
      simp [getStatTokens, h1, h2, h3, h4, hl', h]
    | false =>
      cases runs with
      | nil =>
        have hnil : ([] : List RunStats).mapM
            (fun r : RunStats => collect (r.frames.map some) (some inner)) =
            .ok [] := rfl
        rw [List.mapM] at hnil
        simp [getStatTokens, h1, h2, h3, h4, h, hrec, hnil]
      | cons r rs =>
        have hme : (r :: rs).mapM
            (fun r : RunStats => collect (r.frames.map some) (some inner)) =
            .error (.unknownCumulation inner) :=
          mapM_cons_error _ _ _ _
            (collect_error_of_unrecognized (r.frames.map some) inner hrec)
        rw [List.mapM] at hme
        simp [getStatTokens, h1, h2, h3, h4, hme, hrec]

/-- Witness for `leftover_tokens_fatal`: three leftover tokens before
`build-time`, and two before a recognized inner token with `frame-time`. -/
theorem leftover_tokens_fatal_witness :
    getStatTokens [] (["a", "b", "c"] ++ ["build-time"]) = .error .tooMany
    ∧ getStatTokens [⟨0, [1]⟩] ((["a", "b"] ++ ["sum"]) ++ ["frame-time"]) =
        .error (if recognizedCum "sum" || List.isEmpty [(⟨0, [1]⟩ : RunStats)]
          then .tooMany else .unknownCumulation "sum") :=
  ⟨leftover_tokens_fatal.1 [] ["a", "b", "c"] (by decide),
    leftover_tokens_fatal.2 [⟨0, [1]⟩] ["a", "b"] "sum" (by decide)⟩

/-- C1: whenever `loadShader` returns (rather than dying on an unreadable
file) and the built-in fallback source compiles, the active entry point is
non-null afterwards, and the returned flag is `true` exactly when the
requested shader (not the fallback) was compiled and is the active one. -/
theorem loadShader_fallback_invariant (EP : Type) (env : Env EP)
    (st st' : ViewerState EP) (path : Option String) (status : Bool)
    (hrun : loadShader env st path = .ok (st', status))
    (hfb : (env.compile (wrapShaderSource fallbackSource) true).isSome = true) :
    st'.entryPointFunc.isSome = true
    ∧ (status = true ↔ ∃ p contents ep, path = some p
        ∧ env.readFile p = some contents
        ∧ env.compile (wrapShaderSource contents) (isPathToGLSL env p) = some ep
        ∧ st'.entryPointFunc = some ep) := by
  obtain ⟨fb, hfbeq⟩ := Option.isSome_iff_exists.mp hfb
  cases path with
  | none =>
    simp only [loadShader, loadShaderFromSource, hfbeq, Except.ok.injEq,
      Prod.mk.injEq] at hrun
    obtain ⟨rfl, rfl⟩ := hrun
    simp
  | some p =>
    cases hrf : env.readFile p with
    | none => simp [loadShader, hrf] at hrun
    | some contents =>
      cases hc : env.compile (wrapShaderSource contents) (isPathToGLSL env p) with
      | some f =>
        simp only [loadShader, hrf, loadShaderFromSource, hc, if_true,
          Except.ok.injEq, Prod.mk.injEq] at hrun
        obtain ⟨rfl, rfl⟩ := hrun
        refine ⟨rfl, ?_⟩
        simp only [true_iff]
        exact ⟨p, contents, f, rfl, hrf, hc, rfl⟩
      | none =>
        simp only [loadShader, hrf, loadShaderFromSource, hc, hfbeq,
          Bool.false_eq_true, if_false, Except.ok.injEq, Prod.mk.injEq] at hrun
        obtain ⟨rfl, rfl⟩ := hrun
        refine ⟨rfl, iff_of_false (by simp) ?_⟩
        rintro ⟨p', contents', ep, hp, hrf', hc', _⟩
        obtain rfl : p = p' := by injection hp
        rw [hrf] at hrf'
        obtain rfl : contents = contents' := by injection hrf'
        rw [hc] at hc'
        exact Option.noConfusion hc'

/-- Witness for `loadShader_fallback_invariant`: loading the null path under
an always-succeeding compiler leaves the fallback entry point active and
reports `false`. -/
theorem loadShader_fallback_invariant_witness :
    (ViewerState.mk (some 7) : ViewerState ℕ).entryPointFunc.isSome = true
    ∧ (false = true ↔ ∃ p contents ep, (none : Option String) = some p
        ∧ envOk.readFile p = some contents
        ∧ envOk.compile (wrapShaderSource contents) (isPathToGLSL envOk p) = some ep
        ∧ (ViewerState.mk (some 7) : ViewerState ℕ).entryPointFunc = some ep) :=
  loadShader_fallback_invariant ℕ envOk ⟨none⟩ ⟨some 7⟩ none false rfl rfl

/-- C2 counterexample: compile failure is NOT recoverable in every mode — in
benchmark mode a shader that fails to build makes the `run` command
`panic` (modeled `.error`, the process exits) without substituting the
fallback, so the system does not keep running. -/
theorem benchmark_compile_failure_fatal :
    benchmarkLoadShader envFail (⟨none⟩ : ViewerState ℕ) "bad.slang" =
      .error ("Failed to load shader " ++ "bad.slang") := rfl

/-- C2 (amended): when the requested shader fails to build, `loadShader`
(used at startup and throughout interactive mode) substitutes the fallback,
reports failure, and keeps running — and a failed drop-load additionally
clears the validity flag; but in benchmark mode the `run` command treats a
build failure as a fatal error that terminates the process. -/
theorem compile_failure_modes (EP : Type) (env : Env EP) (st : ViewerState EP)
    (p contents : String)
    (hrf : env.readFile p = some contents)
    (hfail : env.compile (wrapShaderSource contents) (isPathToGLSL env p) = none) :
    loadShader env st (some p) =
      .ok (⟨env.compile (wrapShaderSource fallbackSource) true⟩, false)
    ∧ benchmarkLoadShader env st p = .error ("Failed to load shader " ++ p)
    ∧ (∀ (ms : MonitorState EP) (mtime : Int), ms.viewer = st →
        env.pathInfo p = some mtime →
        handleDropFile env ms p =
          .ok { ms with
            viewer := ⟨env.compile (wrapShaderSource fallbackSource) true⟩,
            valid := false }) := by
  have hload : loadShader env st (some p) =
      .ok (⟨env.compile (wrapShaderSource fallbackSource) true⟩, false) := by
    cases hfb : env.compile (wrapShaderSource fallbackSource) true <;>
      simp [loadShader, hrf, loadShaderFromSource, hfail, hfb]
  refine ⟨hload, ?_, ?_⟩
  · simp [benchmarkLoadShader, hrf, loadShaderFromSource, hfail]
  · intro ms mtime hv hpi
    rw [← hv] at hload
    simp [handleDropFile, hpi, hload]

/-- Witness for `compile_failure_modes` under the always-failing compiler:
the interactive path substitutes the (here also failing) fallback and keeps
running with status `false`, while the benchmark path dies. -/
theorem compile_failure_modes_witness :
    loadShader envFail (⟨none⟩ : ViewerState ℕ) (some "w.slang") =
      .ok (⟨envFail.compile (wrapShaderSource fallbackSource) true⟩, false)
    ∧ benchmarkLoadShader envFail (⟨none⟩ : ViewerState ℕ) "w.slang" =
        .error ("Failed to load shader " ++ "w.slang") :=
  ⟨(compile_failure_modes ℕ envFail ⟨none⟩ "w.slang" "x" rfl rfl).1,
    (compile_failure_modes ℕ envFail ⟨none⟩ "w.slang" "x" rfl rfl).2.1⟩

/-- C5 counterexample: a failed load on a file-drop does NOT switch the
active shader path (or the baseline timestamp) to the dropped file — both
stay at their prior values, only validity drops to `false`. -/
theorem drop_failure_keeps_prior_path :
    handleDropFile envFail msOld "new.glsl" =
      .ok ⟨⟨none⟩, "old.slang", 5, false⟩
    ∧ ("old.slang" : String) ≠ "new.glsl" :=
  ⟨rfl, by decide⟩

/-- C5 (amended): on a file-drop whose timestamp query succeeds, the handler
invokes `loadShader` on the dropped path and copies its success flag into
the validity flag; on success the active path and baseline timestamp switch
to the dropped file, while on failure they keep their prior values (and the
fallback-substituted viewer state from `loadShader` stays active). -/
theorem drop_file_behavior (EP : Type) (env : Env EP)
    (ms ms' : MonitorState EP) (dropped : String) (mtime : Int)
    (hpi : env.pathInfo dropped = some mtime)
    (hrun : handleDropFile env ms dropped = .ok ms') :
    ∃ v status, loadShader env ms.viewer (some dropped) = .ok (v, status)
      ∧ ms'.viewer = v ∧ ms'.valid = status
      ∧ (status = true → ms'.activeShaderPath = dropped
          ∧ ms'.shaderModifyTime = mtime)
      ∧ (status = false → ms'.activeShaderPath = ms.activeShaderPath
          ∧ ms'.shaderModifyTime = ms.shaderModifyTime) := by
  simp only [handleDropFile, hpi] at hrun
  cases hl : loadShader env ms.viewer (some dropped) with
  | error e => simp [hl] at hrun
  | ok pair =>
    obtain ⟨v, status⟩ := pair
    rw [hl] at hrun
    cases status with
    | true =>
      simp only [Except.ok.injEq] at hrun
      subst hrun
      refine ⟨v, true, rfl, rfl, rfl, fun _ => ⟨rfl, rfl⟩, ?_⟩
      intro h
      simp at h
    | false =>
      simp only [Except.ok.injEq] at hrun
      subst hrun
      refine ⟨v, false, rfl, rfl, rfl, ?_, fun _ => ⟨rfl, rfl⟩⟩
      intro h
      simp at h

/-- Witness for `drop_file_behavior`: a successful drop-load under the
always-succeeding compiler switches path, timestamp and validity. -/
theorem drop_file_behavior_witness :
    ∃ v status,
      loadShader envOk (msOld.viewer) (some "a.glsl") = .ok (v, status)
      ∧ (MonitorState.mk ⟨some 7⟩ "a.glsl" 0 true).viewer = v
      ∧ (MonitorState.mk ⟨some 7⟩ "a.glsl" 0 true).valid = status
      ∧ (status = true → (MonitorState.mk ⟨some 7⟩ "a.glsl" 0 true).activeShaderPath = "a.glsl"
          ∧ (MonitorState.mk ⟨some 7⟩ "a.glsl" 0 true).shaderModifyTime = 0)
      ∧ (status = false → (MonitorState.mk ⟨some 7⟩ "a.glsl" 0 true).activeShaderPath = msOld.activeShaderPath
          ∧ (MonitorState.mk ⟨some 7⟩ "a.glsl" 0 true).shaderModifyTime = msOld.shaderModifyTime) :=
  drop_file_behavior ℕ envOk msOld ⟨⟨some 7⟩, "a.glsl", 0, true⟩ "a.glsl" 0 rfl rfl

/-- C3: a `frame-time` query with at most one inner and one outer token (an
outer token can only be present together with an inner one, since a single
prefix token is always consumed as the inner cumulation) evaluates exactly
as the spec describes: the inner cumulation (default last-or-0) maps each
run's frame list to one sample, then the outer cumulation (default
last-or-0) reduces the per-run samples; in particular, with runs [1,2] and
[3,4] recorded, "sum frame-time" evaluates to 7. -/
theorem frame_time_query_pipeline :
    (∀ (runs : List RunStats) (inner outer : Option String),
      (outer.isSome = true → inner.isSome = true) →
      getStatTokens runs (outer.toList ++ inner.toList ++ ["frame-time"]) =
        frameTimeQuerySpec runs inner outer)
    ∧ getStat [⟨0, [1, 2]⟩, ⟨0, [3, 4]⟩] "sum frame-time" = .ok (some 7) := by
  constructor
  · intro runs inner outer hshape
    cases inner with
    | none =>
      cases outer with
      | some o => simp at hshape
      | none =>
        cases hm : runs.mapM (fun r => collect (r.frames.map some) none) with
        | error e =>
          rw [List.mapM] at hm
          simp [getStatTokens, frameTimeQuerySpec, hm]
        | ok stats =>
          rw [List.mapM] at hm
          simp [getStatTokens, frameTimeQuerySpec, hm]
    | some i =>
      cases hm : runs.mapM (fun r => collect (r.frames.map some) (some i)) with
      | error e =>
        rw [List.mapM] at hm
        cases outer with
        | none => simp [getStatTokens, frameTimeQuerySpec, hm]
        | some o => simp [getStatTokens, frameTimeQuerySpec, hm]
      | ok stats =>
        rw [List.mapM] at hm
        cases outer with
        | none => simp [getStatTokens, frameTimeQuerySpec, hm]
        | some o => simp [getStatTokens, frameTimeQuerySpec, hm]
  · with_unfolding_all rfl

/-- Witness for `frame_time_query_pipeline`: the shape hypothesis holds for
an inner `sum` with no outer token, and the pipeline equation follows. -/
theorem frame_time_query_pipeline_witness :
    getStatTokens [⟨0, [1, 2]⟩, ⟨0, [3, 4]⟩]
      ((none : Option String).toList ++ (some "sum").toList ++ ["frame-time"]) =
      frameTimeQuerySpec [⟨0, [1, 2]⟩, ⟨0, [3, 4]⟩] (some "sum") none :=
  frame_time_query_pipeline.1 [⟨0, [1, 2]⟩, ⟨0, [3, 4]⟩] (some "sum") none
    (fun _ => rfl)

/-- Mapping a list into `some`s and sequencing recovers the list. -/
theorem mapM_id_map_some {α : Type} : ∀ l : List α, (l.map some).mapM id = some l := by
  intro l
  induction l with
  | nil => rfl
  | cons a t ih =>
    rw [List.map_cons, List.mapM_cons, ih]
    rfl

/-- A found `n`-th root really is one. -/
theorem natNthRoot_pow (m n k : ℕ) (h : natNthRoot m n = some k) : k ^ n = m := by
  unfold natNthRoot at h
  simpa using List.find?_some h

/-- The reciprocal-sum loop of `harmonicMean`, on nonzero finite inputs. -/
theorem recip_fold : ∀ (l : List ℚ) (acc : ℚ), (∀ v ∈ l, v ≠ 0) →
    (l.map some).foldl (fun s v => fadd s (fdiv (some 1) v)) (some acc) =
      some (acc + (l.map (fun v => 1 / v)).sum) := by
  intro l
  induction l with
  | nil =>
    intro acc _
    simp
  | cons a t ih =>
    intro acc h
    have ha : a ≠ 0 := h a (List.mem_cons_self a t)
    have hstep : fadd (some acc) (fdiv (some 1) (some a)) = some (acc + 1 / a) := by
      simp [fadd, fdiv, ha]
    rw [List.map_cons, List.foldl_cons, hstep,
      ih (acc + 1 / a) (fun v hv => h v (List.mem_cons_of_mem a hv))]
    simp only [List.map_cons, List.sum_cons]
    exact congrArg some (by ring)

/-- C8: `median` of a nonempty sequence is the element at index ⌊n/2⌋ of an
ascending sort; `geomean` returns (whenever its float result has an exact
rational value) the product raised to the power 1/n — the n-th root of the
product, which for n ≥ 2 is the nonnegative real root, and for n = 1 is the
product itself exactly (any sign, since `pow(s, 1.0)` is exact); and
`harmonic-mean` returns n divided by the sum of reciprocals; concretely
median([1,2,3,4]) = 3, median([1,2,3]) = 2, geomean([4,9]) = 6 and
harmonic-mean([1,2,4]) = 12/7. -/
theorem aggregate_function_formulas :
    (∀ l : List ℚ, l ≠ [] →
      ∃ s, s.Perm l ∧ List.Sorted (· ≤ ·) s ∧
        medianF (l.map some) = some (s.getD (l.length / 2) 0))
    ∧ (∀ (l : List ℚ) (g : ℚ), l ≠ [] → geomeanF (l.map some) = some g →
        g ^ l.length = l.prod ∧ (1 < l.length → 0 ≤ g))
    ∧ (∀ x : ℚ, geomeanF ([x].map some) = some x)
    ∧ (∀ l : List ℚ, l ≠ [] → (∀ v ∈ l, v ≠ 0) →
        (l.map (fun v => 1 / v)).sum ≠ 0 →
        harmonicMeanF (l.map some) =
          some ((l.length : ℚ) / (l.map (fun v => 1 / v)).sum))
    ∧ medianF ([1, 2, 3, 4].map some) = some 3
    ∧ medianF ([1, 2, 3].map some) = some 2
    ∧ geomeanF ([4, 9].map some) = some 6
    ∧ harmonicMeanF ([1, 2, 4].map some) = some (12 / 7) := by
  refine ⟨?_, ?_, ?_, ?_, by with_unfolding_all rfl, by with_unfolding_all rfl,
    by with_unfolding_all rfl, by with_unfolding_all rfl⟩
  · intro l hl
    have hmap : l.map some ≠ [] := by simpa using hl
    refine ⟨List.insertionSort (· ≤ ·) l, List.perm_insertionSort _ l,
      List.sorted_insertionSort _ l, ?_⟩
    simp only [medianF, if_neg hmap, mapM_id_map_some l]
  · intro l g hl hg
    have hmap : l.map some ≠ [] := by simpa using hl
    have hlen : l.length ≠ 0 := by simpa using hl
    simp only [geomeanF, if_neg hmap, mapM_id_map_some l] at hg
    by_cases h1 : l.length = 1
    · rw [if_pos h1] at hg
      obtain rfl : l.prod = g := by injection hg
      exact ⟨by rw [h1, pow_one], fun hgt => absurd h1 (by omega)⟩
    · rw [if_neg h1] at hg
      by_cases hp : l.prod < 0
      · rw [if_pos hp] at hg
        exact absurd hg (by simp)
      · rw [if_neg hp] at hg
        push_neg at hp
        rw [ratRoot] at hg
        cases ha : natNthRoot l.prod.num.toNat l.length with
        | none =>
          rw [ha] at hg
          cases hb : natNthRoot l.prod.den l.length <;> rw [hb] at hg <;>
            exact absurd hg (by simp)
        | some a =>
          cases hb : natNthRoot l.prod.den l.length with
          | none =>
            rw [ha, hb] at hg
            exact absurd hg (by simp)
          | some b =>
            rw [ha, hb] at hg
            have hga : ((a : ℚ) / (b : ℚ)) = g := by
              injection hg
            have han : a ^ l.length = l.prod.num.toNat := natNthRoot_pow _ _ _ ha
            have hbn : b ^ l.length = l.prod.den := natNthRoot_pow _ _ _ hb
            have hbz : b ≠ 0 := by
              intro hb0
              rw [hb0, zero_pow hlen] at hbn
              exact l.prod.den_nz hbn.symm
            have hbq : (b : ℚ) ≠ 0 := by exact_mod_cast hbz
            subst hga
            refine ⟨?_, fun _ => div_nonneg (by positivity) (by positivity)⟩
            rw [div_pow]
            rw [show ((a : ℚ)) ^ l.length = ((a ^ l.length : ℕ) : ℚ) by push_cast; ring,
              show ((b : ℚ)) ^ l.length = ((b ^ l.length : ℕ) : ℚ) by push_cast; ring,
              han, hbn]
            rw [show ((l.prod.num.toNat : ℕ) : ℚ) = ((l.prod.num : ℤ) : ℚ) by
              exact_mod_cast Int.toNat_of_nonneg (Rat.num_nonneg.mpr hp)]
            exact Rat.num_div_den l.prod
  · intro x
    have hm : List.mapM.loop id [some x] [] = some [x] := rfl
    simp [geomeanF, hm]
  · intro l hl hnz hs
    have hmap : l.map some ≠ [] := by simpa using hl
    simp only [harmonicMeanF, if_neg hmap]
    rw [recip_fold l 0 hnz, zero_add]
    simp only [fdiv, if_neg hs, List.length_map]

/-- Witness for `aggregate_function_formulas`: the harmonic-mean clause
applied at [1, 2, 4] (all elements and the reciprocal sum nonzero). -/
theorem aggregate_function_formulas_witness :
    harmonicMeanF (([1, 2, 4] : List ℚ).map some) =
      some (((([1, 2, 4] : List ℚ).length : ℕ) : ℚ) /
        (([1, 2, 4] : List ℚ).map (fun v => 1 / v)).sum) :=
  aggregate_function_formulas.2.2.2.1 [1, 2, 4] (by decide) (by decide)
    (by with_unfolding_all decide)

end ShaderViewer
